import Mathlib

/-!
Verification of the case-scoped access-control and document-resolution engine
of the legal-app-rag backend. Definitions are shallow embeddings of the
JavaScript source (src/backend/server.js and the alternate server build in
src/unnamed/part_009); external collaborators (Azure Search, blob storage,
the Smart Advocate authority, the agent runtime) are modelled as oracle
function parameters, and each handler's observable effects are recorded in an
explicit trace list.
-/

namespace LegalRag

/-- The single-quote character, used to build OData string literals. -/
def sq : String := (Char.ofNat 39).toString

/-- JS `path.split('/')[0]`: the leading segment of a storage path, the
characters before the first slash. -/
def leadingSegment (p : String) : String :=
  String.mk (p.data.takeWhile (fun c => c ≠ Char.ofNat 47))

/-- JS regex test `/^\d+$/.test(s)`: nonempty and all digits. -/
def isNumericStr (s : String) : Bool := !s.data.isEmpty && s.data.all Char.isDigit

/-- JS `Array.prototype.join(sep)` semantics: empty list joins to `""`. -/
def joinSep (sep : String) : List String → String
| [] => ""
| a :: as => as.foldl (fun acc x => acc ++ sep ++ x) a

/-- One OData equality clause, JS template `case_number eq '${caseNum}'`
(server.js line 170 and line 463). -/
def caseClause (caseNum : String) : String :=
  "case_number eq " ++ sq ++ caseNum ++ sq

/-- server.js `generateCaseNumberFilter(userCases)`: `null` for the `*`
(admin) sentinel, otherwise the `' or '`-join of one equality clause per
authorized case.  The inline filter of `runAgentConversation`
(server.js lines 461-463) computes the same expression. -/
def generateCaseNumberFilter (userCases : List String) : Option String :=
  if userCases.contains "*" then none
  else some (joinSep " or " (userCases.map caseClause))

theorem joinSep_map_prefix (sep : String) (f : String → String)
    (cs : List String) (acc : String) :
    ∃ rest, cs.foldl (fun a x => a ++ sep ++ f x) acc = acc ++ rest := by
  induction cs generalizing acc with
  | nil => exact ⟨"", by simp⟩
  | cons x xs ih =>
      obtain ⟨r, hr⟩ := ih (acc ++ sep ++ f x)
      refine ⟨sep ++ f x ++ r, ?_⟩
      rw [List.foldl_cons, hr]
      simp [String.append_assoc]

/-- C7 Empty-entitlement filter degeneration: when the caller's entitlement
list does not contain the `*` sentinel, the structured case filter passed to
the retrieval engine is the `or`-join of one `case_number` equality clause
per authorized case; in particular an empty entitlement list produces the
empty string (the join of zero clauses), so the layer-1 pre-filter imposes no
case restriction for exactly the users entitled to see nothing, while a
non-empty list yields a filter beginning with the first case's clause. -/
theorem emptyEntitlementFilterDegeneration (userCases : List String)
    (hstar : userCases.contains "*" = false) :
    (userCases = [] → generateCaseNumberFilter userCases = some "")
    ∧ generateCaseNumberFilter userCases
        = some (joinSep " or " (userCases.map caseClause))
    ∧ (∀ c cs, userCases = c :: cs →
        ∃ rest, generateCaseNumberFilter userCases = some (caseClause c ++ rest)) := by
  refine ⟨fun h => ?_, ?_, fun c cs h => ?_⟩
  · subst h; rfl
  · unfold generateCaseNumberFilter
    rw [hstar]
    simp
  · subst h
    obtain ⟨r, hr⟩ := joinSep_map_prefix " or " caseClause cs (caseClause c)
    refine ⟨r, ?_⟩
    unfold generateCaseNumberFilter
    rw [hstar]
    simp only [Bool.false_eq_true, if_false, joinSep, List.map_cons]
    rw [List.foldl_map, hr]

/-- C7 witness: a concrete empty entitlement list (no `*`) yields the empty
filter string, and a concrete two-case list yields the two-clause join. -/
theorem emptyEntitlementFilterDegeneration_witness :
    (([] : List String).contains "*" = false
      ∧ generateCaseNumberFilter [] = some "")
    ∧ generateCaseNumberFilter ["25096", "25097"]
        = some (joinSep " or " (["25096", "25097"].map caseClause)) :=
  ⟨⟨by decide, (emptyEntitlementFilterDegeneration [] (by decide)).1 rfl⟩,
    (emptyEntitlementFilterDegeneration ["25096", "25097"] (by decide)).2.1⟩

/-! Kill-switch validation of `runAgentConversation` in the alternate server
build (src/unnamed/part_009, lines 342-552).  Message annotations returned by
the agent are resolved back to storage paths through the search index
(`getBlobPathFromIndex`, modelled as an oracle), and the leading path segment
is checked against the caller's entitlement; any unauthorized hit wipes the
whole response. -/

/-- The payload of one message annotation returned by the agent run. -/
inductive SourceKind where
| urlCitation (title : String)
| fileCitation (quote : String)
| filePathRef (fileId : String)
deriving DecidableEq

/-- One annotation: its payload plus the optional character range used for
snippet extraction. -/
structure SourceRef where
  kind : SourceKind
  startIndex : Option Nat
  endIndex : Option Nat
deriving DecidableEq

/-- Title extraction of part_009 lines 443-458: url citations use the title,
file citations run a filename regex over the quote (the regex engine is the
`extractName` oracle) falling back to the first 50 characters, and file-path
annotations use the file id. -/
def titleOf (extractName : String → Option String) : SourceKind → String
| SourceKind.urlCitation t => t
| SourceKind.fileCitation q => (extractName q).getD (String.mk (q.data.take 50))
| SourceKind.filePathRef fid => fid

/-- The query actually sent to `getBlobPathFromIndex`: the extracted title,
or the literal string `unknown` when it is empty (JS `docTitle || 'unknown'`). -/
def indexQuery (extractName : String → Option String) (a : SourceRef) : String :=
  let t := titleOf extractName a.kind
  if t = "" then "unknown" else t

/-- A citation surfaced to the caller (part_009 `citationInfo`). -/
structure Citation where
  title : String
  blobPath : Option String
  content : String
  chunk : String
deriving DecidableEq

/-- The validation loop of part_009 lines 440-508: for each annotation,
resolve the storage path via the index oracle; when the path's leading
segment is numeric, the caller is not admin and the segment is outside the
allowed set, stop immediately and report the offending case; otherwise push
the citation (snippet text supplied by the `mkChunk` oracle, modelling the
substring / bracket-stripping post-processing) and continue.  Returns the
citations accumulated before any break together with the detected case. -/
def validateRefs (resolveIndex : String → Option String)
    (extractName : String → Option String) (mkChunk : SourceRef → String)
    (isAdmin : Bool) (allowedCasesSet : List String) :
    List SourceRef → List Citation × Option String
| [] => ([], none)
| a :: rest =>
    match resolveIndex (indexQuery extractName a) with
    | some p =>
        if isNumericStr (leadingSegment p) && !isAdmin
            && !(allowedCasesSet.contains (leadingSegment p)) then
          ([], some (leadingSegment p))
        else
          (⟨titleOf extractName a.kind, some p, "Authorized content", mkChunk a⟩ ::
              (validateRefs resolveIndex extractName mkChunk isAdmin allowedCasesSet rest).1,
            (validateRefs resolveIndex extractName mkChunk isAdmin allowedCasesSet rest).2)
    | none =>
        (⟨titleOf extractName a.kind, none, "Authorized content", mkChunk a⟩ ::
            (validateRefs resolveIndex extractName mkChunk isAdmin allowedCasesSet rest).1,
          (validateRefs resolveIndex extractName mkChunk isAdmin allowedCasesSet rest).2)

/-- The fixed refusal message of part_009 lines 520-523, naming the offending
case number and the caller's authorized case list. -/
def refusalMessage (c : String) (userCases : List String) : String :=
  "⚠️ **Access Denied to Information**\n\n" ++
  "I apologize, but I cannot answer this specific question because the relevant documents belong to **Case " ++
  c ++ "**, which you are not authorized to view.\n\n" ++
  "Your access is strictly limited to cases: [" ++ joinSep ", " userCases ++ "]."

/-- The response of the chat answer operation. -/
structure AgentResponse where
  message : String
  citations : List Citation
  appliedFilter : Bool
  blockedUnauthorizedCitations : Bool
deriving DecidableEq

/-- part_009 `runAgentConversation` response assembly (lines 342-552): run
the citation validation and, when an unauthorized case was detected, discard
the assistant's text in favour of the refusal message and empty the citation
list; otherwise return the cleaned assistant message (`stripRefs` models the
bracket-reference stripping regex) with the validated citations. -/
def agentAnswer (resolveIndex : String → Option String)
    (extractName : String → Option String) (mkChunk : SourceRef → String)
    (stripRefs : String → String) (userCases : List String)
    (assistantMessage : String) (refs : List SourceRef) : AgentResponse :=
  let isAdmin := userCases.contains "*"
  let allowedCasesSet := if userCases.contains "*" then [] else userCases
  let r := validateRefs resolveIndex extractName mkChunk isAdmin allowedCasesSet refs
  match r.2 with
  | some c =>
      ⟨refusalMessage c userCases, [], (generateCaseNumberFilter userCases).isSome, true⟩
  | none =>
      ⟨stripRefs assistantMessage, r.1, (generateCaseNumberFilter userCases).isSome, false⟩

theorem validateRefs_cons_break (resolveIndex : String → Option String)
    (extractName : String → Option String) (mkChunk : SourceRef → String)
    (isAdmin : Bool) (allowed : List String) (a : SourceRef) (rest : List SourceRef)
    (p : String) (hres : resolveIndex (indexQuery extractName a) = some p)
    (hbad : (isNumericStr (leadingSegment p) && !isAdmin
        && !(allowed.contains (leadingSegment p))) = true) :
    validateRefs resolveIndex extractName mkChunk isAdmin allowed (a :: rest)
      = ([], some (leadingSegment p)) := by
  simp only [validateRefs, hres]
  rw [hbad]
  simp

theorem validateRefs_cons_pass (resolveIndex : String → Option String)
    (extractName : String → Option String) (mkChunk : SourceRef → String)
    (isAdmin : Bool) (allowed : List String) (a : SourceRef) (rest : List SourceRef)
    (p : String) (hres : resolveIndex (indexQuery extractName a) = some p)
    (hbad : (isNumericStr (leadingSegment p) && !isAdmin
        && !(allowed.contains (leadingSegment p))) = false) :
    validateRefs resolveIndex extractName mkChunk isAdmin allowed (a :: rest)
      = (⟨titleOf extractName a.kind, some p, "Authorized content", mkChunk a⟩ ::
          (validateRefs resolveIndex extractName mkChunk isAdmin allowed rest).1,
        (validateRefs resolveIndex extractName mkChunk isAdmin allowed rest).2) := by
  simp only [validateRefs, hres]
  rw [hbad]
  simp

theorem validateRefs_cons_unresolved (resolveIndex : String → Option String)
    (extractName : String → Option String) (mkChunk : SourceRef → String)
    (isAdmin : Bool) (allowed : List String) (a : SourceRef) (rest : List SourceRef)
    (hres : resolveIndex (indexQuery extractName a) = none) :
    validateRefs resolveIndex extractName mkChunk isAdmin allowed (a :: rest)
      = (⟨titleOf extractName a.kind, none, "Authorized content", mkChunk a⟩ ::
          (validateRefs resolveIndex extractName mkChunk isAdmin allowed rest).1,
        (validateRefs resolveIndex extractName mkChunk isAdmin allowed rest).2) := by
  simp [validateRefs, hres]

theorem validateRefs_safe (resolveIndex : String → Option String)
    (extractName : String → Option String) (mkChunk : SourceRef → String)
    (allowed : List String) (refs : List SourceRef) :
    (∀ cit ∈ (validateRefs resolveIndex extractName mkChunk false allowed refs).1,
      ∀ p, cit.blobPath = some p → isNumericStr (leadingSegment p) = true →
        allowed.contains (leadingSegment p) = true)
    ∧ (∀ c, (validateRefs resolveIndex extractName mkChunk false allowed refs).2 = some c →
        isNumericStr c = true ∧ allowed.contains c = false)
    ∧ ((∃ a ∈ refs, ∃ p, resolveIndex (indexQuery extractName a) = some p ∧
          isNumericStr (leadingSegment p) = true ∧
          allowed.contains (leadingSegment p) = false) →
        (validateRefs resolveIndex extractName mkChunk false allowed refs).2.isSome = true) := by
  induction refs with
  | nil =>
      refine ⟨fun cit h => absurd h (by simp [validateRefs]),
        fun c h => by simp [validateRefs] at h, ?_⟩
      rintro ⟨a, ha, -⟩
      exact absurd ha (List.not_mem_nil a)
  | cons a rest ih =>
      obtain ⟨ih1, ih2, ih3⟩ := ih
      refine ⟨?_, ?_, ?_⟩
      · intro cit hcit p hp hnum
        cases hres : resolveIndex (indexQuery extractName a) with
        | some q =>
            cases hbad : (isNumericStr (leadingSegment q) && !false
                && !(allowed.contains (leadingSegment q))) with
            | true =>
                rw [validateRefs_cons_break resolveIndex extractName mkChunk false allowed
                  a rest q hres hbad] at hcit
                simp at hcit
            | false =>
                rw [validateRefs_cons_pass resolveIndex extractName mkChunk false allowed
                  a rest q hres hbad] at hcit
                rcases List.mem_cons.mp hcit with hhead | htail
                · subst hhead
                  have hqp : q = p := by simpa using hp
                  subst hqp
                  cases hcont : allowed.contains (leadingSegment q) with
                  | true => rfl
                  | false =>
                      rw [hnum, hcont] at hbad
                      simp at hbad
                · exact ih1 cit htail p hp hnum
        | none =>
            rw [validateRefs_cons_unresolved resolveIndex extractName mkChunk false allowed
              a rest hres] at hcit
            rcases List.mem_cons.mp hcit with hhead | htail
            · subst hhead
              simp at hp
            · exact ih1 cit htail p hp hnum
      · intro c hc
        cases hres : resolveIndex (indexQuery extractName a) with
        | some q =>
            cases hbad : (isNumericStr (leadingSegment q) && !false
                && !(allowed.contains (leadingSegment q))) with
            | true =>
                rw [validateRefs_cons_break resolveIndex extractName mkChunk false allowed
                  a rest q hres hbad] at hc
                have hqc : leadingSegment q = c := by simpa using hc
                subst hqc
                simp only [Bool.not_false, Bool.and_true, Bool.and_eq_true,
                  Bool.not_eq_true'] at hbad
                exact ⟨hbad.1, hbad.2⟩
            | false =>
                rw [validateRefs_cons_pass resolveIndex extractName mkChunk false allowed
                  a rest q hres hbad] at hc
                exact ih2 c hc
        | none =>
            rw [validateRefs_cons_unresolved resolveIndex extractName mkChunk false allowed
              a rest hres] at hc
            exact ih2 c hc
      · rintro ⟨b, hb, p, hres, hnum, hout⟩
        rcases List.mem_cons.mp hb with hba | hbrest
        · subst hba
          have hbad : (isNumericStr (leadingSegment p) && !false
              && !(allowed.contains (leadingSegment p))) = true := by
            rw [hnum, hout]
            rfl
          rw [validateRefs_cons_break resolveIndex extractName mkChunk false allowed
            b rest p hres hbad]
          rfl
        · have hrec := ih3 ⟨b, hbrest, p, hres, hnum, hout⟩
          cases hres2 : resolveIndex (indexQuery extractName a) with
          | some q =>
              cases hbad : (isNumericStr (leadingSegment q) && !false
                  && !(allowed.contains (leadingSegment q))) with
              | true =>
                  rw [validateRefs_cons_break resolveIndex extractName mkChunk false allowed
                    a rest q hres2 hbad]
                  rfl
              | false =>
                  rw [validateRefs_cons_pass resolveIndex extractName mkChunk false allowed
                    a rest q hres2 hbad]
                  exact hrec
          | none =>
              rw [validateRefs_cons_unresolved resolveIndex extractName mkChunk false allowed
                a rest hres2]
              exact hrec

theorem agentAnswer_of_not_admin (resolveIndex : String → Option String)
    (extractName : String → Option String) (mkChunk : SourceRef → String)
    (stripRefs : String → String) (userCases : List String)
    (hstar : userCases.contains "*" = false)
    (msg : String) (refs : List SourceRef) :
    agentAnswer resolveIndex extractName mkChunk stripRefs userCases msg refs
      = match (validateRefs resolveIndex extractName mkChunk false userCases refs).2 with
        | some c => ⟨refusalMessage c userCases, [], true, true⟩
        | none => ⟨stripRefs msg,
            (validateRefs resolveIndex extractName mkChunk false userCases refs).1,
            true, false⟩ := by
  have hfil : (generateCaseNumberFilter userCases).isSome = true := by
    unfold generateCaseNumberFilter
    rw [hstar]
    rfl
  unfold agentAnswer
  rw [hstar, hfil]
  simp

/-- C1 Kill-switch isolation: for a caller without the `*` sentinel, the chat
answer operation never returns a citation whose resolved storage path has a
numeric leading CaseID outside the caller's entitlement, and whenever any
annotation of the generated answer resolves to such an unauthorized case, the
whole response is replaced by the fixed refusal message naming an offending
case number and the returned citation list is empty. -/
theorem killSwitchIsolation (resolveIndex : String → Option String)
    (extractName : String → Option String) (mkChunk : SourceRef → String)
    (stripRefs : String → String) (userCases : List String)
    (hstar : userCases.contains "*" = false)
    (msg : String) (refs : List SourceRef) :
    (∀ C, isNumericStr C = true → userCases.contains C = false →
      ∀ cit ∈ (agentAnswer resolveIndex extractName mkChunk stripRefs userCases msg refs).citations,
        ∀ p, cit.blobPath = some p → leadingSegment p ≠ C)
    ∧ ((∃ a ∈ refs, ∃ p, resolveIndex (indexQuery extractName a) = some p ∧
          isNumericStr (leadingSegment p) = true ∧
          userCases.contains (leadingSegment p) = false) →
        ∃ C, isNumericStr C = true ∧ userCases.contains C = false ∧
          (agentAnswer resolveIndex extractName mkChunk stripRefs userCases msg refs).message
            = refusalMessage C userCases ∧
          (agentAnswer resolveIndex extractName mkChunk stripRefs userCases msg refs).citations
            = []) := by
  obtain ⟨h1, h2, h3⟩ := validateRefs_safe resolveIndex extractName mkChunk userCases refs
  have heq := agentAnswer_of_not_admin resolveIndex extractName mkChunk stripRefs
    userCases hstar msg refs
  constructor
  · intro C hCnum hCout cit hcit p hp hlead
    rw [heq] at hcit
    cases hblk : (validateRefs resolveIndex extractName mkChunk false userCases refs).2 with
    | some c =>
        rw [hblk] at hcit
        simp at hcit
    | none =>
        rw [hblk] at hcit
        simp only at hcit
        have hin := h1 cit hcit p hp (hlead ▸ hCnum)
        rw [hlead] at hin
        rw [hin] at hCout
        cases hCout
  · rintro hex
    have hsome := h3 hex
    cases hblk : (validateRefs resolveIndex extractName mkChunk false userCases refs).2 with
    | none => rw [hblk] at hsome; cases hsome
    | some c =>
        obtain ⟨hcnum, hcout⟩ := h2 c hblk
        refine ⟨c, hcnum, hcout, ?_, ?_⟩ <;> rw [heq, hblk]

/-- C1 witness: a concrete index oracle resolving the single annotation to a
path in case 300 while the caller is entitled only to case 100 produces the
refusal message and an empty citation list. -/
theorem killSwitchIsolation_witness :
    (["100"] : List String).contains "*" = false
    ∧ ∃ C, isNumericStr C = true ∧ (["100"] : List String).contains C = false ∧
        (agentAnswer (fun t => if t = "doc" then some "300/file.txt" else none)
          (fun _ => none) (fun _ => "") (fun s => s) ["100"] "leaked answer"
          [⟨SourceKind.urlCitation "doc", none, none⟩]).message
          = refusalMessage C ["100"] ∧
        (agentAnswer (fun t => if t = "doc" then some "300/file.txt" else none)
          (fun _ => none) (fun _ => "") (fun s => s) ["100"] "leaked answer"
          [⟨SourceKind.urlCitation "doc", none, none⟩]).citations = [] :=
  ⟨by decide,
    (killSwitchIsolation (fun t => if t = "doc" then some "300/file.txt" else none)
      (fun _ => none) (fun _ => "") (fun s => s) ["100"] (by decide)
      "leaked answer" [⟨SourceKind.urlCitation "doc", none, none⟩]).2
      ⟨⟨SourceKind.urlCitation "doc", none, none⟩, by decide, "300/file.txt",
        by decide, by decide, by decide⟩⟩

/-! Document resolution, server.js `app.post('/api/documents/get-url')`
(lines 988-1124).  The blob store and search index are oracles in a
`StorageEnv`; every call to a collaborator is recorded in a trace. -/

/-- One observable collaborator call made while resolving a document. -/
inductive ResolveCall where
| existsCheck (path : String)
| indexSearch (filename : String)
| storageEnum (filename : String)
deriving DecidableEq

/-- External collaborators of the resolver: blob existence checks
(`blobClient.exists()`), the index lookup (`getBlobPathFromIndex`, whose
keyword extraction and scoring happen inside the search service adapter), the
storage fallback scan (`findDocumentInStorage`), and whether a search client
is configured at all. -/
structure StorageEnv where
  blobExists : String → Bool
  indexLookup : String → Option String
  storageFind : String → List String → Option String
  hasSearchClient : Bool

/-- Strategy 3 (server.js lines 1031-1041): fall back to scanning blob
storage, guarded by JS-truthy `filename`. -/
def strategy3 (env : StorageEnv) (filename : String) (userCases : List String) :
    Option (String × String) × List ResolveCall :=
  if filename = "" then (none, [])
  else ((env.storageFind filename userCases).map (fun p => (p, "fallback")),
    [ResolveCall.storageEnum filename])

/-- Strategy 2 (server.js lines 1010-1029): search the index by title, then
verify the returned path exists; guarded by `filename && searchClient`. -/
def strategy2 (env : StorageEnv) (filename : String) (userCases : List String) :
    Option (String × String) × List ResolveCall :=
  if filename = "" || !env.hasSearchClient then strategy3 env filename userCases
  else
    match env.indexLookup filename with
    | some q =>
        if env.blobExists q then
          (some (q, "index-search"),
            [ResolveCall.indexSearch filename, ResolveCall.existsCheck q])
        else
          let r := strategy3 env filename userCases
          (r.1, ResolveCall.indexSearch filename :: ResolveCall.existsCheck q :: r.2)
    | none =>
        let r := strategy3 env filename userCases
        (r.1, ResolveCall.indexSearch filename :: r.2)

/-- The resolution cascade (server.js lines 996-1041): strategy 1 trusts a
JS-truthy `blobPath` hint from the request body when the object exists at
exactly that path; otherwise strategy 2, then strategy 3. -/
def resolveCascade (env : StorageEnv) (filename : String)
    (blobPathHint : Option String) (userCases : List String) :
    Option (String × String) × List ResolveCall :=
  match blobPathHint with
  | some p =>
      if p = "" then strategy2 env filename userCases
      else if env.blobExists p then (some (p, "index-direct"), [ResolveCall.existsCheck p])
      else
        let r := strategy2 env filename userCases
        (r.1, ResolveCall.existsCheck p :: r.2)
  | none => strategy2 env filename userCases

/-- JS `finalBlobPath.match(/^(\d{5})/)`: the first five characters when they
are all digits, else no match. -/
def firstFiveDigits (p : String) : Option String :=
  let cs := p.data.take 5
  if cs.length = 5 && cs.all Char.isDigit then some (String.mk cs) else none

/-- Outcome of the get-url endpoint. -/
inductive DocResult where
| notFound
| forbidden (documentCase : String)
| sasIssued (path : String) (source : String) (caseNumber : Option String)
deriving DecidableEq

/-- server.js lines 1043-1115: after the cascade, re-check the path's
five-digit case prefix against entitlement (`*` sentinel bypasses); a failed
check answers 403 before any SAS URL is generated, otherwise a read-only SAS
URL for exactly the resolved path is issued. -/
def getDocumentUrl (env : StorageEnv) (filename : String)
    (blobPathHint : Option String) (userCases : List String) :
    DocResult × List ResolveCall :=
  let r := resolveCascade env filename blobPathHint userCases
  match r.1 with
  | none => (DocResult.notFound, r.2)
  | some (p, src) =>
      match firstFiveDigits p with
      | some actualCase =>
          if !(userCases.contains "*") && !(userCases.contains actualCase) then
            (DocResult.forbidden actualCase, r.2)
          else
            (DocResult.sasIssued p src (some actualCase), r.2)
      | none => (DocResult.sasIssued p src none, r.2)

/-- C8 Resolution cascade short-circuit: a supplied hint whose object exists
resolves to exactly that path with a single existence check — no index search
and no storage enumeration; an index search appears in the trace only when
the hint was absent, empty, or its object did not exist; a storage
enumeration appears only when, additionally, any index search that could run
failed to produce an existing object. -/
theorem resolutionCascadeShortCircuit (env : StorageEnv) (filename : String)
    (blobPathHint : Option String) (userCases : List String) :
    (∀ p, blobPathHint = some p → p ≠ "" → env.blobExists p = true →
      resolveCascade env filename blobPathHint userCases
        = (some (p, "index-direct"), [ResolveCall.existsCheck p]))
    ∧ (∀ f, ResolveCall.indexSearch f ∈ (resolveCascade env filename blobPathHint userCases).2 →
        blobPathHint = none ∨ blobPathHint = some ""
          ∨ ∃ p, blobPathHint = some p ∧ env.blobExists p = false)
    ∧ (∀ f, ResolveCall.storageEnum f ∈ (resolveCascade env filename blobPathHint userCases).2 →
        (blobPathHint = none ∨ blobPathHint = some ""
          ∨ ∃ p, blobPathHint = some p ∧ env.blobExists p = false)
        ∧ (env.hasSearchClient = true → filename ≠ "" →
            ∀ q, env.indexLookup filename = some q → env.blobExists q = false)) := by
  have hs3 : ∀ f, ResolveCall.indexSearch f ∉ (strategy3 env filename userCases).2 := by
    intro f hf
    unfold strategy3 at hf
    by_cases hfn : filename = ""
    · rw [if_pos hfn] at hf; simp at hf
    · rw [if_neg hfn] at hf; simp at hf
  have hs3e : ∀ f, ResolveCall.storageEnum f ∈ (strategy3 env filename userCases).2 →
      filename ≠ "" := by
    intro f hf hfn
    unfold strategy3 at hf
    rw [if_pos hfn] at hf
    simp at hf
  have hs2 : ∀ f, ResolveCall.storageEnum f ∈ (strategy2 env filename userCases).2 →
      env.hasSearchClient = true → filename ≠ "" →
      ∀ q, env.indexLookup filename = some q → env.blobExists q = false := by
    intro f hf hcl hfn q hq
    unfold strategy2 at hf
    rw [if_neg (by simp [hfn, hcl])] at hf
    simp only [hq] at hf
    cases hex : env.blobExists q with
    | true => rw [hex] at hf; simp at hf
    | false => rfl
  constructor
  · intro p hp hne hex
    subst hp
    simp only [resolveCascade]
    rw [if_neg hne, if_pos hex]
  constructor
  · intro f hf
    cases hhint : blobPathHint with
    | none => exact Or.inl rfl
    | some p =>
        by_cases hne : p = ""
        · subst hne; exact Or.inr (Or.inl rfl)
        · refine Or.inr (Or.inr ⟨p, rfl, ?_⟩)
          cases hex : env.blobExists p with
          | true =>
              rw [hhint] at hf
              simp only [resolveCascade] at hf
              rw [if_neg hne, if_pos hex] at hf
              simp at hf
          | false => rfl
  · intro f hf
    constructor
    · cases hhint : blobPathHint with
      | none => exact Or.inl rfl
      | some p =>
          by_cases hne : p = ""
          · subst hne; exact Or.inr (Or.inl rfl)
          · refine Or.inr (Or.inr ⟨p, rfl, ?_⟩)
            cases hex : env.blobExists p with
            | true =>
                rw [hhint] at hf
                simp only [resolveCascade] at hf
                rw [if_neg hne, if_pos hex] at hf
                simp at hf
            | false => rfl
    · intro hcl hfn q hq
      have hf2 : ResolveCall.storageEnum f ∈ (strategy2 env filename userCases).2 := by
        cases hhint : blobPathHint with
        | none => rw [hhint] at hf; exact hf
        | some p =>
            rw [hhint] at hf
            simp only [resolveCascade] at hf
            by_cases hne : p = ""
            · rw [if_pos hne] at hf; exact hf
            · rw [if_neg hne] at hf
              cases hex : env.blobExists p with
              | true => rw [if_pos hex] at hf; simp at hf
              | false =>
                  rw [if_neg (by rw [hex]; exact Bool.false_ne_true)] at hf
                  simpa using hf
      exact hs2 f hf2 hcl hfn q hq

/-- C8 witness: with a concrete store containing `25096/contract.pdf`, the
hint short-circuits: the result uses the hinted path and the trace is the
single existence check. -/
theorem resolutionCascadeShortCircuit_witness :
    resolveCascade
        ⟨fun p => p = "25096/contract.pdf", fun _ => none, fun _ _ => none, true⟩
        "contract.pdf" (some "25096/contract.pdf") ["25096"]
      = (some ("25096/contract.pdf", "index-direct"),
          [ResolveCall.existsCheck "25096/contract.pdf"]) :=
  (resolutionCascadeShortCircuit
      ⟨fun p => p = "25096/contract.pdf", fun _ => none, fun _ _ => none, true⟩
      "contract.pdf" (some "25096/contract.pdf") ["25096"]).1
    "25096/contract.pdf" rfl (by decide) (by decide)

/-- C2 counterexample: the path `999/doc.pdf` has leading CaseID segment
`999`, a numeric case outside the entitlement `["100"]` of a non-admin
caller, yet the resolver issues a signed URL instead of rejecting with 403,
because its check only fires when the path starts with exactly five digits. -/
theorem docResolutionRecheck_cex :
    leadingSegment "999/doc.pdf" = "999"
    ∧ isNumericStr "999" = true
    ∧ (["100"] : List String).contains "*" = false
    ∧ (["100"] : List String).contains "999" = false
    ∧ (getDocumentUrl
          ⟨fun _ => true, fun _ => none, fun _ _ => none, true⟩
          "doc.pdf" (some "999/doc.pdf") ["100"]).1
        = DocResult.sasIssued "999/doc.pdf" "index-direct" none := by
  refine ⟨by decide, by decide, by decide, by decide, by decide⟩

/-- C2 amended: the resolver derives the CaseID as the first five characters
of the resolved path when those are all digits; when the caller's entitlement
is not the `*` sentinel and does not contain that five-digit CaseID, the
request is rejected with Forbidden and no signed URL is issued, for every
resolution source (hint, index, or storage enumeration); a resolved path not
beginning with five digits is served without any case check. -/
theorem docResolutionFiveDigitRecheck (env : StorageEnv) (filename : String)
    (blobPathHint : Option String) (userCases : List String)
    (p src : String) (c : String)
    (hres : (resolveCascade env filename blobPathHint userCases).1 = some (p, src))
    (hfive : firstFiveDigits p = some c)
    (hstar : userCases.contains "*" = false)
    (hout : userCases.contains c = false) :
    (getDocumentUrl env filename blobPathHint userCases).1 = DocResult.forbidden c := by
  simp only [getDocumentUrl, hres, hfive]
  rw [hstar, hout]
  rfl

/-- C2 amended witness: a five-digit case path outside entitlement is
rejected with Forbidden naming the case. -/
theorem docResolutionFiveDigitRecheck_witness :
    (resolveCascade ⟨fun _ => true, fun _ => none, fun _ _ => none, true⟩
        "doc.pdf" (some "25096/doc.pdf") ["100"]).1 = some ("25096/doc.pdf", "index-direct")
    ∧ firstFiveDigits "25096/doc.pdf" = some "25096"
    ∧ (["100"] : List String).contains "*" = false
    ∧ (["100"] : List String).contains "25096" = false
    ∧ (getDocumentUrl ⟨fun _ => true, fun _ => none, fun _ _ => none, true⟩
        "doc.pdf" (some "25096/doc.pdf") ["100"]).1 = DocResult.forbidden "25096" :=
  ⟨by decide, by decide, by decide, by decide,
    docResolutionFiveDigitRecheck
      ⟨fun _ => true, fun _ => none, fun _ _ => none, true⟩
      "doc.pdf" (some "25096/doc.pdf") ["100"] "25096/doc.pdf" "index-direct" "25096"
      (by decide) (by decide) (by decide) (by decide)⟩

/-! Session issuance: server.js `app.post('/api/login')` (lines 712-786) and
`app.post('/api/auth/microsoft')` (lines 788-866), plus the JWT middleware
`authenticateToken` (lines 868-885).  The directory is the in-memory
`permissionsCache`; JWTs are modelled as signed payload values. -/

/-- One user record of the permissions cache (`tempByUserId[uid]`). -/
structure UserProfile where
  name : String
  email : Option String
  role : String
  cases : List String
deriving DecidableEq

/-- The in-memory entitlement directory `permissionsCache` (server.js lines
588-593).  In JS, `byEmail[email]` aliases the same object as
`byUserId[uid]`, so it is modelled as a reference to the user id (`none`
models the JS `undefined` stored when a staff record lacks a user id). -/
structure PermissionsCache where
  byUserId : List (Nat × UserProfile)
  byEmail : List (String × Option Nat)
  lastSync : Option Nat
  isSyncing : Bool
deriving DecidableEq

/-- The claims object signed into a session JWT.  The credential route fills
`saUsername`/`saUserID`; the Microsoft route fills
`authProvider`/`firebaseUid`. -/
structure TokenPayload where
  email : String
  name : String
  cases : List String
  sessionId : String
  saUsername : Option String
  saUserID : Option Nat
  authProvider : Option String
  firebaseUid : Option String
deriving DecidableEq

/-- A signed JWT: `jwt.sign(payload, JWT_SECRET)` serializes the payload at
signing time, freezing its contents. -/
inductive Jwt where
| signed (payload : TokenPayload) (secret : String)
deriving DecidableEq

/-- `jwt.verify(token, JWT_SECRET)`: yields the frozen payload when the
signature matches the server secret. -/
def verifyJwt (secret : String) : Jwt → Option TokenPayload
| Jwt.signed p s => if s = secret then some p else none

/-- JS string truthiness fallback `a || b` for an optional string. -/
def jsOrStr (v : Option String) (dflt : String) : String :=
  match v with
  | some s => if s = "" then dflt else s
  | none => dflt

/-- JS `String.prototype.toLowerCase()`. -/
def jsToLower (s : String) : String := String.mk (s.data.map Char.toLower)

/-- JS `String.prototype.trim()`. -/
def jsTrim (s : String) : String :=
  String.mk (((s.data.dropWhile Char.isWhitespace).reverse.dropWhile
    Char.isWhitespace).reverse)

/-- JS `email.split('@')[0]` (Char.ofNat 64 is the at-sign). -/
def emailLocalPart (e : String) : String :=
  String.mk (e.data.takeWhile (fun c => c ≠ Char.ofNat 64))

/-- The entitlement the directory currently grants a user id (empty when the
user has no entry). -/
def entitlementOf (cache : PermissionsCache) (uid : Nat) : List String :=
  match cache.byUserId.lookup uid with
  | some p => p.cases
  | none => []

/-- `permissionsCache.byEmail[normalizedEmail]` dereferenced to the profile
it aliases. -/
def lookupEmailProfile (cache : PermissionsCache) (e : String) : Option UserProfile :=
  match cache.byEmail.lookup e with
  | some (some uid) => cache.byUserId.lookup uid
  | _ => none

/-- Outcome of `/api/login`. -/
inductive LoginResult where
| badRequest
| invalidCredentials
| authFailed
| ok (token : Jwt) (userEmail userName : String) (userCases : List String)
deriving DecidableEq

/-- server.js `/api/login` (lines 712-786): require both fields, authenticate
against Smart Advocate (`authRes` is the returned `userID`, `none` when SA
rejected, and a JS-falsy `0` id fails), then copy the caller's current cases
from the permissions cache (empty when unlisted) into a signed 24h JWT whose
`sessionId` is `username-now`. -/
def loginHandler (cache : PermissionsCache) (username password : String)
    (authRes : Option Nat) (now : Nat) (secret : String) : LoginResult :=
  if username = "" || password = "" then LoginResult.badRequest
  else
    match authRes with
    | none => LoginResult.invalidCredentials
    | some saUserID =>
        if saUserID = 0 then LoginResult.authFailed
        else
          let userProfile := cache.byUserId.lookup saUserID
          let userCases := match userProfile with
            | some p => p.cases
            | none => []
          let displayName := match userProfile with
            | some p => jsOrStr (some p.name) username
            | none => username
          let userEmail := match userProfile with
            | some p => jsOrStr p.email (username ++ "@actslaw.com")
            | none => username ++ "@actslaw.com"
          let sessionId := username ++ "-" ++ toString now
          LoginResult.ok
            (Jwt.signed
              ⟨userEmail, displayName, userCases, sessionId,
                some username, some saUserID, none, none⟩ secret)
            userEmail displayName userCases

/-- A verified Firebase identity token. -/
structure DecodedIdToken where
  uid : String
  email : Option String
  name : Option String
  picture : Option String
deriving DecidableEq

/-- Outcome of `/api/auth/microsoft`. -/
inductive MsAuthResult where
| badRequest (msg : String)
| invalidToken
| accessDenied (email : String)
| ok (token : Jwt) (userEmail userName : String) (userCases : List String)
    (photoURL : Option String)
deriving DecidableEq

/-- server.js `/api/auth/microsoft` (lines 788-866): verify the Firebase
token, require an email, normalize it (lower-case then trim), and look it up
in the permissions cache; an authenticated caller with no directory entry is
rejected with 403 Access denied, otherwise a session JWT carrying the
profile's cases is issued. -/
def microsoftAuthHandler (cache : PermissionsCache) (idToken : Option String)
    (verifyIdToken : String → Option DecodedIdToken) (now : Nat)
    (secret : String) : MsAuthResult :=
  match idToken with
  | none => MsAuthResult.badRequest "ID token required"
  | some t =>
      if t = "" then MsAuthResult.badRequest "ID token required"
      else
        match verifyIdToken t with
        | none => MsAuthResult.invalidToken
        | some dt =>
            match dt.email with
            | none => MsAuthResult.badRequest "Email not found in token"
            | some email =>
                if email = "" then MsAuthResult.badRequest "Email not found in token"
                else
                  let normalizedEmail := jsTrim (jsToLower email)
                  match lookupEmailProfile cache normalizedEmail with
                  | none => MsAuthResult.accessDenied normalizedEmail
                  | some user =>
                      let msName := jsOrStr (some user.name)
                        (jsOrStr dt.name (emailLocalPart email))
                      MsAuthResult.ok
                        (Jwt.signed
                          ⟨normalizedEmail, msName, user.cases,
                            normalizedEmail ++ "-" ++ toString now,
                            none, none, some "microsoft", some dt.uid⟩ secret)
                        normalizedEmail msName user.cases dt.picture

/-- The case list `/api/chat` authorizes against (lines 891-918): the token
payload's frozen `cases` (`req.user.cases` after `authenticateToken`); the
current permissions cache is in scope for the handler but never consulted. -/
def chatUserCases (cache : PermissionsCache) (secret : String) (tok : Jwt) :
    Option (List String) :=
  (verifyJwt secret tok).map TokenPayload.cases

/-- The case list `/api/documents/get-url` authorizes against (line 994):
also the token payload's frozen `cases`, never the current cache. -/
def docRequestUserCases (cache : PermissionsCache) (secret : String) (tok : Jwt) :
    Option (List String) :=
  (verifyJwt secret tok).map TokenPayload.cases

theorem loginHandler_token_cases (cache : PermissionsCache)
    (username password : String) (hu : username ≠ "") (hp : password ≠ "")
    (uid : Nat) (huid : uid ≠ 0) (now : Nat) (secret : String)
    (tok : TokenPayload) (e n : String) (cs : List String)
    (hissued : loginHandler cache username password (some uid) now secret
      = LoginResult.ok (Jwt.signed tok secret) e n cs) :
    tok.cases = entitlementOf cache uid := by
  simp only [loginHandler] at hissued
  rw [if_neg (by simp [hu, hp]), if_neg huid] at hissued
  injection hissued with h1 h2 h3 h4
  injection h1 with hpay hsec
  rw [← hpay]
  unfold entitlementOf
  rfl

/-- C3 Snapshot freezing: a token issued by `/api/login` against directory
generation `d1` carries exactly `d1`'s entitlement for the user; every later
chat and document-resolution request verifies the token and authorizes
against that frozen list regardless of the current directory `d2`; the
changed entitlement in `d2` is observable only through a fresh login, which
issues a token carrying `d2`'s entitlement. -/
theorem snapshotFreezing (d1 d2 : PermissionsCache) (username password : String)
    (hu : username ≠ "") (hp : password ≠ "")
    (uid : Nat) (huid : uid ≠ 0) (now later : Nat) (secret : String)
    (tok : TokenPayload) (e n : String) (cs : List String)
    (hissued : loginHandler d1 username password (some uid) now secret
      = LoginResult.ok (Jwt.signed tok secret) e n cs) :
    tok.cases = entitlementOf d1 uid
    ∧ chatUserCases d2 secret (Jwt.signed tok secret) = some (entitlementOf d1 uid)
    ∧ docRequestUserCases d2 secret (Jwt.signed tok secret) = some (entitlementOf d1 uid)
    ∧ (∀ tok2 e2 n2 cs2,
        loginHandler d2 username password (some uid) later secret
          = LoginResult.ok (Jwt.signed tok2 secret) e2 n2 cs2 →
        tok2.cases = entitlementOf d2 uid) := by
  have hc := loginHandler_token_cases d1 username password hu hp uid huid now secret
    tok e n cs hissued
  refine ⟨hc, ?_, ?_, ?_⟩
  · simp [chatUserCases, verifyJwt, hc]
  · simp [docRequestUserCases, verifyJwt, hc]
  · intro tok2 e2 n2 cs2 hissued2
    exact loginHandler_token_cases d2 username password hu hp uid huid later secret
      tok2 e2 n2 cs2 hissued2

/-- Concrete directory generations used by the C3 witness: `d1` grants user 7
case 100 only, the rebuilt `d2` grants cases 100 and 200. -/
def snapshotD1 : PermissionsCache :=
  ⟨[(7, ⟨"Alice Smith", some "alice@actslaw.com", "Attorney", ["100"]⟩)],
    [("alice@actslaw.com", some 7)], some 0, false⟩

/-- Second directory generation for the C3 witness. -/
def snapshotD2 : PermissionsCache :=
  ⟨[(7, ⟨"Alice Smith", some "alice@actslaw.com", "Attorney", ["100", "200"]⟩)],
    [("alice@actslaw.com", some 7)], some 1, false⟩

/-- The token payload `/api/login` issues for user 7 against `snapshotD1`. -/
def snapshotTok : TokenPayload :=
  ⟨"alice@actslaw.com", "Alice Smith", ["100"], "alice-0",
    some "alice", some 7, none, none⟩

/-- C3 witness: a concrete token issued against `snapshotD1` carries `[100]`,
chat under the rebuilt `snapshotD2` still authorizes `[100]`, and a fresh
login against `snapshotD2` observes `[100, 200]`. -/
theorem snapshotFreezing_witness :
    loginHandler snapshotD1 "alice" "pw" (some 7) 0 "sec"
      = LoginResult.ok (Jwt.signed snapshotTok "sec") "alice@actslaw.com"
          "Alice Smith" ["100"]
    ∧ snapshotTok.cases = entitlementOf snapshotD1 7
    ∧ chatUserCases snapshotD2 "sec" (Jwt.signed snapshotTok "sec")
        = some (entitlementOf snapshotD1 7)
    ∧ (∀ tok2 e2 n2 cs2,
        loginHandler snapshotD2 "alice" "pw" (some 7) 1 "sec"
          = LoginResult.ok (Jwt.signed tok2 "sec") e2 n2 cs2 →
        tok2.cases = entitlementOf snapshotD2 7) :=
  have h := snapshotFreezing snapshotD1 snapshotD2 "alice" "pw" (by decide)
    (by decide) 7 (by decide) 0 1 "sec" snapshotTok "alice@actslaw.com"
    "Alice Smith" ["100"] (by decide)
  ⟨by decide, h.1, h.2.1, h.2.2.2⟩

/-- C9 counterexample: a caller whose Firebase assertion verifies (external
authority succeeded) but who has no directory entry is rejected by
`/api/auth/microsoft` with 403 Access denied — login does not succeed and no
empty-entitlement token is issued. -/
theorem microsoftUnlistedDenied_cex :
    microsoftAuthHandler ⟨[], [], none, false⟩ (some "idtok")
        (fun _ => some ⟨"fb-uid-1", some "X@y.com ", none, none⟩) 0 "sec"
      = MsAuthResult.accessDenied "x@y.com" := by decide

/-- C9 amended: on the credential (`/api/login`) route an authenticated
caller with no directory entry does get a successful login carrying the
empty entitlement; the federated `/api/auth/microsoft` route instead rejects
an authenticated caller with no directory entry with 403 Access denied and
issues no token. -/
theorem authenticatedUnlistedLogin (cache : PermissionsCache)
    (username password : String) (hu : username ≠ "") (hp : password ≠ "")
    (uid : Nat) (huid : uid ≠ 0) (now : Nat) (secret : String)
    (habsent : cache.byUserId.lookup uid = none) :
    loginHandler cache username password (some uid) now secret
      = LoginResult.ok
          (Jwt.signed
            ⟨username ++ "@actslaw.com", username, [],
              username ++ "-" ++ toString now, some username, some uid,
              none, none⟩ secret)
          (username ++ "@actslaw.com") username []
    ∧ (∀ (tstr : String) (verifyIdToken : String → Option DecodedIdToken)
          (dt : DecodedIdToken) (email : String),
        tstr ≠ "" → verifyIdToken tstr = some dt → dt.email = some email →
        email ≠ "" →
        lookupEmailProfile cache (jsTrim (jsToLower email)) = none →
        microsoftAuthHandler cache (some tstr) verifyIdToken now secret
          = MsAuthResult.accessDenied (jsTrim (jsToLower email))) := by
  constructor
  · simp only [loginHandler]
    rw [if_neg (by simp [hu, hp]), if_neg huid, habsent]
  · intro tstr verifyIdToken dt email ht hv he hne hprof
    simp only [microsoftAuthHandler]
    rw [if_neg ht, hv]
    simp only [he]
    rw [if_neg hne, hprof]

/-- C9 amended witness: against an empty directory, user `bob` (SA id 9)
authenticates and receives a token with the empty case list, while a
Microsoft-authenticated caller with the same empty directory is denied. -/
theorem authenticatedUnlistedLogin_witness :
    loginHandler ⟨[], [], none, false⟩ "bob" "pw" (some 9) 0 "sec"
      = LoginResult.ok
          (Jwt.signed
            ⟨"bob@actslaw.com", "bob", [], "bob-0", some "bob", some 9,
              none, none⟩ "sec")
          "bob@actslaw.com" "bob" []
    ∧ microsoftAuthHandler ⟨[], [], none, false⟩ (some "idtok")
        (fun _ => some ⟨"fb-uid-2", some "bob@other.com", none, none⟩) 0 "sec"
      = MsAuthResult.accessDenied "bob@other.com" :=
  have h := authenticatedUnlistedLogin ⟨[], [], none, false⟩ "bob" "pw"
    (by decide) (by decide) 9 (by decide) 0 "sec" rfl
  ⟨by
      have h1 := h.1
      simpa using h1,
    by
      have h2 := h.2 "idtok" (fun _ => some ⟨"fb-uid-2", some "bob@other.com", none, none⟩)
        ⟨"fb-uid-2", some "bob@other.com", none, none⟩ "bob@other.com"
        (by decide) rfl rfl (by decide) (by decide)
      simpa using h2⟩

/-! Conversation session manager: server.js `getOrCreateThread` (lines
182-221) and `deleteThread` (lines 223-238).  The `userThreads` Map is an
association list; remote thread ids are minted by a counter modelling the
agent service's `threads.create()`, and remote calls are traced. -/

/-- Keyed update with JS `Map.prototype.set` lookup semantics (entry order is
not observable through `lookup`). -/
def setA {α β : Type} [BEq α] (l : List (α × β)) (k : α) (v : β) : List (α × β) :=
  (k, v) :: l.filter (fun kv => !(kv.1 == k))

/-- JS `Map.prototype.delete`. -/
def eraseKey {α β : Type} [BEq α] (l : List (α × β)) (k : α) : List (α × β) :=
  l.filter (fun kv => !(kv.1 == k))

theorem lookup_setA_self {α β : Type} [BEq α] [LawfulBEq α]
    (l : List (α × β)) (k : α) (v : β) : (setA l k v).lookup k = some v := by
  simp [setA, List.lookup]

theorem lookup_eraseKey_self {α β : Type} [BEq α] [LawfulBEq α]
    (l : List (α × β)) (k : α) : (eraseKey l k).lookup k = none := by
  induction l with
  | nil => rfl
  | cons a t ih =>
      obtain ⟨k2, v2⟩ := a
      unfold eraseKey at ih ⊢
      by_cases hk : k2 = k
      · subst hk
        simpa using ih
      · have hbeq : (k2 == k) = false := beq_false_of_ne hk
        have hbeq2 : (k == k2) = false := beq_false_of_ne (Ne.symm hk)
        simp only [List.filter_cons, hbeq, Bool.not_false, if_pos]
        simpa [List.lookup, hbeq2] using ih

theorem lookup_mem {α β : Type} [BEq α] [LawfulBEq α]
    (l : List (α × β)) (k : α) (v : β) (h : l.lookup k = some v) : (k, v) ∈ l := by
  induction l with
  | nil => cases h
  | cons a t ih =>
      obtain ⟨k2, v2⟩ := a
      rw [List.lookup] at h
      cases hbeq : k == k2 with
      | true =>
          rw [hbeq] at h
          simp only [Option.some.injEq] at h
          subst h
          have : k = k2 := eq_of_beq hbeq
          subst this
          exact List.mem_cons_self _ _
      | false =>
          rw [hbeq] at h
          exact List.mem_cons_of_mem _ (ih h)

/-- Server-side conversation state per session (server.js lines 209-214):
the remote thread id, the entitlement snapshot it was created under, the
derived search filter and a creation timestamp. -/
structure ThreadInfo where
  threadId : Nat
  cases : List String
  searchFilter : Option String
  createdAt : Nat
deriving DecidableEq

/-- One remote call to the agent thread service. -/
inductive ThreadCall where
| createRemote (threadId : Nat)
| deleteRemote (threadId : Nat)
deriving DecidableEq

/-- The `userThreads` map plus the remote id counter. -/
structure ThreadState where
  userThreads : List (String × ThreadInfo)
  nextRemoteId : Nat
deriving DecidableEq

/-- server.js `deleteThread` (lines 223-238): when a thread is mapped, the
remote deletion is attempted (`remoteOk` is its result) and the local mapping
is dropped in both the success and the failure branch; the returned Bool is
true only on remote success. -/
def deleteThread (remoteOk : Bool) (s : ThreadState) (sessionId : String) :
    Bool × ThreadState × List ThreadCall :=
  match s.userThreads.lookup sessionId with
  | some info =>
      (remoteOk, { s with userThreads := eraseKey s.userThreads sessionId },
        [ThreadCall.deleteRemote info.threadId])
  | none => (false, s, [])

/-- server.js lines 201-220: create a fresh remote thread and store it with a
copy of the supplied cases and the derived filter. -/
def createThread (now : Nat) (s : ThreadState) (sessionId : String)
    (userCases : List String) : Nat × ThreadState × List ThreadCall :=
  (s.nextRemoteId,
    ⟨setA s.userThreads sessionId
        ⟨s.nextRemoteId, userCases, generateCaseNumberFilter userCases, now⟩,
      s.nextRemoteId + 1⟩,
    [ThreadCall.createRemote s.nextRemoteId])

/-- server.js `getOrCreateThread` (lines 182-221): reuse the mapped thread
when the stored cases match the supplied ones (same length and every stored
case contained); otherwise delete the old thread and create a fresh one. -/
def getOrCreateThread (remoteOk : Bool) (now : Nat) (s : ThreadState)
    (sessionId : String) (userCases : List String) :
    Nat × ThreadState × List ThreadCall :=
  match s.userThreads.lookup sessionId with
  | some threadInfo =>
      if threadInfo.cases.length == userCases.length
          && threadInfo.cases.all (fun c => userCases.contains c) then
        (threadInfo.threadId, s, [])
      else
        let d := deleteThread remoteOk s sessionId
        let c := createThread now d.2.1 sessionId userCases
        (c.1, c.2.1, d.2.2 ++ c.2.2)
  | none => createThread now s sessionId userCases

theorem casesMatch_iff (a b : List String) (ha : a.Nodup) (hb : b.Nodup) :
    (a.length == b.length && a.all fun c => b.contains c) = true
      ↔ (∀ c, c ∈ a ↔ c ∈ b) := by
  constructor
  · intro h
    simp only [Bool.and_eq_true, beq_iff_eq, List.all_eq_true] at h
    obtain ⟨hlen, hsub⟩ := h
    have hsub2 : ∀ c ∈ a, c ∈ b := fun c hc => List.elem_iff.mp (hsub c hc)
    have hfs : a.toFinset ⊆ b.toFinset := by
      intro x hx
      rw [List.mem_toFinset] at hx ⊢
      exact hsub2 x hx
    have hcard : b.toFinset.card ≤ a.toFinset.card := by
      rw [List.toFinset_card_of_nodup ha, List.toFinset_card_of_nodup hb, hlen]
    have heq := Finset.eq_of_subset_of_card_le hfs hcard
    intro c
    refine ⟨hsub2 c, fun hcb => ?_⟩
    have hc2 : c ∈ b.toFinset := List.mem_toFinset.mpr hcb
    rw [← heq] at hc2
    exact List.mem_toFinset.mp hc2
  · intro h
    have hfs : a.toFinset = b.toFinset := by
      ext x
      simp only [List.mem_toFinset]
      exact h x
    have hlen : a.length = b.length := by
      rw [← List.toFinset_card_of_nodup ha, ← List.toFinset_card_of_nodup hb, hfs]
    simp only [Bool.and_eq_true, beq_iff_eq, List.all_eq_true]
    exact ⟨hlen, fun c hc => List.elem_iff.mpr ((h c).mp hc)⟩

/-- C4 Thread rebinding: with duplicate-free entitlement lists, calling
`getOrCreateThread` with a list set-equal to the stored snapshot returns the
existing ThreadId with the state untouched and no remote calls; with a
set-unequal list (a case added or removed both count) the old thread is
deleted remotely and a fresh, distinct ThreadId is created and stored under
the new snapshot; and `deleteThread` drops the local mapping even when the
remote deletion fails. -/
theorem threadRebinding (remoteOk : Bool) (now : Nat) (s : ThreadState)
    (sid : String) (info : ThreadInfo) (supplied : List String)
    (hwf : ∀ kv ∈ s.userThreads, kv.2.threadId < s.nextRemoteId)
    (hlook : s.userThreads.lookup sid = some info)
    (hnd1 : info.cases.Nodup) (hnd2 : supplied.Nodup) :
    ((∀ c, c ∈ info.cases ↔ c ∈ supplied) →
      getOrCreateThread remoteOk now s sid supplied = (info.threadId, s, []))
    ∧ (¬(∀ c, c ∈ info.cases ↔ c ∈ supplied) →
        (getOrCreateThread remoteOk now s sid supplied).1 = s.nextRemoteId
        ∧ (getOrCreateThread remoteOk now s sid supplied).1 ≠ info.threadId
        ∧ ThreadCall.deleteRemote info.threadId
            ∈ (getOrCreateThread remoteOk now s sid supplied).2.2
        ∧ (getOrCreateThread remoteOk now s sid supplied).2.1.userThreads.lookup sid
            = some ⟨s.nextRemoteId, supplied, generateCaseNumberFilter supplied, now⟩)
    ∧ (∀ rOk : Bool, (deleteThread rOk s sid).2.1.userThreads.lookup sid = none) := by
  refine ⟨?_, ?_, ?_⟩
  · intro hset
    have hmatch := (casesMatch_iff info.cases supplied hnd1 hnd2).mpr hset
    simp only [getOrCreateThread, hlook]
    rw [if_pos hmatch]
  · intro hset
    have hmatch : (info.cases.length == supplied.length
        && info.cases.all fun c => supplied.contains c) = false := by
      cases hm : (info.cases.length == supplied.length
          && info.cases.all fun c => supplied.contains c) with
      | true => exact absurd ((casesMatch_iff info.cases supplied hnd1 hnd2).mp hm) hset
      | false => rfl
    have hne : info.threadId ≠ s.nextRemoteId :=
      Nat.ne_of_lt (hwf (sid, info) (lookup_mem s.userThreads sid info hlook))
    simp only [getOrCreateThread, hlook, hmatch, deleteThread, createThread]
    refine ⟨rfl, fun hcontra => hne hcontra.symm, by simp, ?_⟩
    exact lookup_setA_self _ sid _
  · intro rOk
    simp only [deleteThread, hlook]
    exact lookup_eraseKey_self s.userThreads sid

/-- Concrete thread state for the C4 witness: session `sess` is bound to
remote thread 0 under snapshot `[100]`. -/
def wThreadState : ThreadState :=
  ⟨[("sess", ⟨0, ["100"], generateCaseNumberFilter ["100"], 5⟩)], 1⟩

/-- C4 witness: re-supplying the set-equal snapshot `[100]` reuses thread 0
untouched; supplying `[100, 200]` deletes thread 0 remotely and rebinds the
session to the fresh distinct thread 1; and a failed remote deletion still
drops the local mapping. -/
theorem threadRebinding_witness :
    getOrCreateThread true 9 wThreadState "sess" ["100"] = (0, wThreadState, [])
    ∧ (getOrCreateThread true 9 wThreadState "sess" ["100", "200"]).1 = 1
    ∧ (getOrCreateThread true 9 wThreadState "sess" ["100", "200"]).1 ≠ 0
    ∧ ThreadCall.deleteRemote 0
        ∈ (getOrCreateThread true 9 wThreadState "sess" ["100", "200"]).2.2
    ∧ (deleteThread false wThreadState "sess").2.1.userThreads.lookup "sess" = none := by
  have h1 := (threadRebinding true 9 wThreadState "sess"
    ⟨0, ["100"], generateCaseNumberFilter ["100"], 5⟩ ["100"]
    (by decide) (by decide) (by decide) (by decide)).1 (fun c => Iff.rfl)
  have h2 := (threadRebinding true 9 wThreadState "sess"
    ⟨0, ["100"], generateCaseNumberFilter ["100"], 5⟩ ["100", "200"]
    (by decide) (by decide) (by decide) (by decide)).2
  have hne : ¬(∀ c, c ∈ (⟨0, ["100"], generateCaseNumberFilter ["100"], 5⟩ :
      ThreadInfo).cases ↔ c ∈ ["100", "200"]) := by
    intro hset
    exact absurd ((hset "200").mpr (by decide)) (by decide)
  obtain ⟨ha, hb, hc, -⟩ := h2.1 hne
  exact ⟨h1, ha, hb, hc, h2.2 false⟩

/-! Synchronizer: server.js `syncPermissions` (lines 605-699) and
`app.post('/api/admin/force-sync')` (lines 1127-1159).  The Smart Advocate
authority and blob enumeration are oracle results; network activity is
traced. -/

/-- One staff record returned by the authority's per-case roster lookup. -/
structure Staff where
  userID : Option Nat
  email : Option String
  firstName : String
  lastName : String
  role : String
deriving DecidableEq

/-- JS truthiness of `staff.userID` (absent or 0 is falsy). -/
def jsUid (s : Staff) : Option Nat :=
  match s.userID with
  | some u => if u = 0 then none else some u
  | none => none

/-- server.js line 661: `staff.email ? staff.email.toLowerCase().trim() :
null`. -/
def normEmail (s : Staff) : Option String :=
  match s.email with
  | some e => if e = "" then none else some (jsTrim (jsToLower e))
  | none => none

/-- The scratch maps built during one sync (`tempByUserId`, `tempByEmail`). -/
structure RosterMaps where
  byUserId : List (Nat × UserProfile)
  byEmail : List (String × Option Nat)
deriving DecidableEq

/-- server.js lines 659-680: fold one staff record of one case into the
scratch maps — create the profile on first sight, push the case number if
not yet present, and point the normalized email at the profile (at JS
`undefined` when the record has no usable user id). -/
def applyStaff (caseNum : String) (m : RosterMaps) (s : Staff) : RosterMaps :=
  match jsUid s with
  | none =>
      match normEmail s with
      | some e => { m with byEmail := setA m.byEmail e none }
      | none => m
  | some uid =>
      let fresh : UserProfile := ⟨s.firstName ++ " " ++ s.lastName, normEmail s, s.role, []⟩
      let m1 := match m.byUserId.lookup uid with
        | none => { m with byUserId := setA m.byUserId uid fresh }
        | some _ => m
      let m2 := match m1.byUserId.lookup uid with
        | some prof =>
            if prof.cases.contains caseNum then m1
            else
              let updated : UserProfile := { prof with cases := prof.cases ++ [caseNum] }
              { m1 with byUserId := setA m1.byUserId uid updated }
        | none => m1
      match normEmail s with
      | some e => { m2 with byEmail := setA m2.byEmail e (some uid) }
      | none => m2

/-- True when an oracle call succeeded. -/
def exceptOk {ε α : Type} : Except ε α → Bool
| Except.ok _ => true
| Except.error _ => false

/-- server.js lines 651-686: one iteration of the per-case roster loop; an
individual lookup failure is ignored (`catch (e) {}`), a successful non-array
payload is also skipped, and a successful list is folded in. -/
def processCase (staffRes : String → Except Unit (List Staff))
    (m : RosterMaps) (caseNum : String) : RosterMaps :=
  match staffRes caseNum with
  | Except.error _ => m
  | Except.ok staffList => staffList.foldl (applyStaff caseNum) m

/-- The whole roster-fetch loop over the enumerated case list. -/
def buildRoster (staffRes : String → Except Unit (List Staff))
    (cases : List String) : RosterMaps :=
  cases.foldl (processCase staffRes) ⟨[], []⟩

/-- server.js lines 630-640: collect the distinct numeric leading segments of
the enumerated blob names, in first-seen order (a JS `Set`). -/
def extractCaseNumbers (blobs : List String) : List String :=
  blobs.foldl (fun acc b =>
    let c := leadingSegment b
    if isNumericStr c && !acc.contains c then acc ++ [c] else acc) []

/-- One observable network call of the synchronizer. -/
inductive SyncCall where
| authenticate
| listBlobs
| staffLookup (caseNum : String)
deriving DecidableEq

/-- server.js `syncPermissions` (lines 605-699): single-flight guard on
`isSyncing`, then authenticate as the system principal (`authRes`), enumerate
the store (`blobsRes`), run the roster loop, and only then replace the cache
maps and `lastSync` wholesale; any thrown failure lands in the outer catch,
leaving the previous maps untouched, and `finally` clears the flag. -/
def syncPermissions (now : Nat) (authRes : Except Unit Unit)
    (blobsRes : Except Unit (List String))
    (staffRes : String → Except Unit (List Staff))
    (cache : PermissionsCache) : PermissionsCache × List SyncCall :=
  if cache.isSyncing then (cache, [])
  else
    match authRes with
    | Except.error _ => ({ cache with isSyncing := false }, [SyncCall.authenticate])
    | Except.ok _ =>
        match blobsRes with
        | Except.error _ =>
            ({ cache with isSyncing := false }, [SyncCall.authenticate, SyncCall.listBlobs])
        | Except.ok blobs =>
            let cases := extractCaseNumbers blobs
            let maps := buildRoster staffRes cases
            (⟨maps.byUserId, maps.byEmail, some now, false⟩,
              SyncCall.authenticate :: SyncCall.listBlobs ::
                cases.map SyncCall.staffLookup)

/-- Outcome of `/api/admin/force-sync`. -/
inductive ForceSyncResp where
| unauthorizedSecret
| conflict
| ok (totalUsers : Nat)
deriving DecidableEq

/-- server.js lines 1127-1159: reject a wrong admin secret with 403, answer
409 without syncing when a sync is already in flight, otherwise run the sync
and report the user count. -/
def forceSyncHandler (adminSecret : String) (now : Nat)
    (authRes : Except Unit Unit) (blobsRes : Except Unit (List String))
    (staffRes : String → Except Unit (List Staff))
    (cache : PermissionsCache) : ForceSyncResp × PermissionsCache × List SyncCall :=
  if adminSecret ≠ "Asdf1234$" then (ForceSyncResp.unauthorizedSecret, cache, [])
  else if cache.isSyncing then (ForceSyncResp.conflict, cache, [])
  else
    let r := syncPermissions now authRes blobsRes staffRes cache
    (ForceSyncResp.ok r.1.byUserId.length, r.1, r.2)

theorem cache_reset_eq (cache : PermissionsCache) (h : cache.isSyncing = false) :
    { cache with isSyncing := false } = cache := by
  obtain ⟨bu, be, ls, sy⟩ := cache
  rw [show sy = false from h]

theorem foldl_processCase_filter (staffRes : String → Except Unit (List Staff)) :
    ∀ (cases : List String) (m : RosterMaps),
      cases.foldl (processCase staffRes) m
        = (cases.filter (fun c => exceptOk (staffRes c))).foldl
            (processCase staffRes) m := by
  intro cases
  induction cases with
  | nil => intro m; rfl
  | cons c cs ih =>
      intro m
      rw [List.foldl_cons, List.filter_cons]
      split
      next hok =>
        rw [List.foldl_cons]
        exact ih (processCase staffRes m c)
      next hok =>
        have hskip : processCase staffRes m c = m := by
          unfold processCase
          cases hres2 : staffRes c with
          | error e => rfl
          | ok staffList => rw [hres2] at hok; exact absurd rfl hok
        rw [hskip]
        exact ih m

/-- C5 Sync failure atomicity: a failed system-principal authentication
aborts the sync with the previous directory generation (both maps and
`lastSync`) completely unchanged; with authentication succeeding, individual
staff-lookup failures are skipped — the roster built equals the roster built
from only the succeeding cases — and the directory is still replaced
wholesale with those entries and a fresh `lastSync`. -/
theorem syncFailureAtomicity (now : Nat) (blobsRes : Except Unit (List String))
    (staffRes : String → Except Unit (List Staff)) (cache : PermissionsCache)
    (hidle : cache.isSyncing = false) :
    syncPermissions now (Except.error ()) blobsRes staffRes cache
      = (cache, [SyncCall.authenticate])
    ∧ (∀ blobs, syncPermissions now (Except.ok ()) (Except.ok blobs) staffRes cache
        = (⟨(buildRoster staffRes (extractCaseNumbers blobs)).byUserId,
            (buildRoster staffRes (extractCaseNumbers blobs)).byEmail,
            some now, false⟩,
          SyncCall.authenticate :: SyncCall.listBlobs ::
            (extractCaseNumbers blobs).map SyncCall.staffLookup))
    ∧ (∀ cases, buildRoster staffRes cases
        = buildRoster staffRes (cases.filter (fun c => exceptOk (staffRes c)))) := by
  refine ⟨?_, ?_, ?_⟩
  · unfold syncPermissions
    rw [hidle]
    simp [cache_reset_eq cache hidle]
  · intro blobs
    unfold syncPermissions
    rw [hidle]
    simp
  · intro cases
    unfold buildRoster
    exact foldl_processCase_filter staffRes cases ⟨[], []⟩

/-- Directory generation used by the C5 and C6 witnesses. -/
def wCache : PermissionsCache :=
  ⟨[(1, ⟨"Al Smith", some "a@b.c", "Attorney", ["100"]⟩)],
    [("a@b.c", some 1)], some 3, false⟩

/-- Roster oracle used by the C5 witness: case 100 succeeds, case 200 fails. -/
def wStaff : String → Except Unit (List Staff) := fun c =>
  if c = "100" then Except.ok [⟨some 1, some "a@b.c", "Al", "Smith", "Attorney"⟩]
  else Except.error ()

/-- C5 witness: with a failed authentication the concrete cache survives
unchanged, and the roster built over `[100, 200]` (case 200 failing) equals
the roster built over the surviving case list `[100]`. -/
theorem syncFailureAtomicity_witness :
    syncPermissions 9 (Except.error ()) (Except.ok ["100/f.txt"]) wStaff wCache
      = (wCache, [SyncCall.authenticate])
    ∧ buildRoster wStaff ["100", "200"]
        = buildRoster wStaff (["100", "200"].filter (fun c => exceptOk (wStaff c))) :=
  have h := syncFailureAtomicity 9 (Except.ok ["100/f.txt"]) wStaff wCache rfl
  ⟨h.1, h.2.2 ["100", "200"]⟩

/-- C6 Single-flight synchronization: a sync invocation that finds the
`isSyncing` flag already set returns immediately with the cache unchanged and
an empty network trace — no authentication, no enumeration, no roster
lookups; and a `force-sync` request arriving while a sync is in flight
answers 409 Conflict, also with no state change and no network calls, so
overlapping triggers collapse into the one running execution. -/
theorem singleFlightSync (now : Nat) (authRes : Except Unit Unit)
    (blobsRes : Except Unit (List String))
    (staffRes : String → Except Unit (List Staff))
    (cache : PermissionsCache) (hbusy : cache.isSyncing = true) :
    syncPermissions now authRes blobsRes staffRes cache = (cache, [])
    ∧ forceSyncHandler "Asdf1234$" now authRes blobsRes staffRes cache
        = (ForceSyncResp.conflict, cache, []) := by
  constructor
  · unfold syncPermissions
    rw [hbusy]
    simp
  · unfold forceSyncHandler
    rw [if_neg (fun hcon => hcon rfl), if_pos hbusy]

/-- C6 witness: on a concrete busy cache, sync is a no-op with no network
calls and force-sync answers Conflict. -/
theorem singleFlightSync_witness :
    syncPermissions 9 (Except.ok ()) (Except.ok ["100/f.txt"]) wStaff
        ⟨[], [], none, true⟩ = (⟨[], [], none, true⟩, [])
    ∧ forceSyncHandler "Asdf1234$" 9 (Except.ok ()) (Except.ok ["100/f.txt"]) wStaff
        ⟨[], [], none, true⟩ = (ForceSyncResp.conflict, ⟨[], [], none, true⟩, []) :=
  singleFlightSync 9 (Except.ok ()) (Except.ok ["100/f.txt"]) wStaff
    ⟨[], [], none, true⟩ rfl

/-! Generation polling: server.js `runAgentConversation` polling loop (lines
425-534) and the `/api/chat` error path (lines 921-944). -/

/-- Status of an agent run as observed by `runs.get`;
`requiresAction false` models `requires_action` with the tool-call list
missing (the loop `break`s), `expired` stands for any other non-terminal
status the loop keeps polling on. -/
inductive RunStatus where
| queued
| inProgress
| requiresAction (hasToolCalls : Bool)
| completed
| failed (lastErrorMessage : Option String)
| cancelled (lastErrorMessage : Option String)
| expired
deriving DecidableEq

/-- Statuses on which the `while (true)` loop performs another poll. -/
def continuesPolling : RunStatus → Bool
| RunStatus.queued => true
| RunStatus.inProgress => true
| RunStatus.requiresAction true => true
| RunStatus.expired => true
| _ => false

/-- The polling loop body (server.js lines 426-534): each iteration sleeps,
fetches the run (`runAt k` is the status of the k-th fetch), increments the
counter and throws `Agent run timeout` once it reaches the ceiling; otherwise
a missing tool-call list breaks out, `completed` breaks out, `failed` and
`cancelled` throw with the engine's last error, and every other status (after
submitting any tool outputs) polls again.  `fuel` counts the iterations left
before the ceiling check fires; the second component counts the fetches
performed. -/
def pollFrom (runAt : Nat → RunStatus) : Nat → Nat → Except String RunStatus × Nat
| 0, _ => (Except.error "Agent run timeout", 1)
| fuel + 1, k =>
    match runAt k with
    | RunStatus.requiresAction false => (Except.ok (RunStatus.requiresAction false), 1)
    | RunStatus.completed => (Except.ok RunStatus.completed, 1)
    | RunStatus.failed m => (Except.error ("Run failed: " ++ m.getD "failed"), 1)
    | RunStatus.cancelled m => (Except.error ("Run failed: " ++ m.getD "cancelled"), 1)
    | _ =>
        let r := pollFrom runAt fuel (k + 1)
        (r.1, r.2 + 1)

/-- server.js line 427: `const maxIterations = 60`. -/
def maxIterations : Nat := 60

/-- The whole polling loop: the timeout check `iterations >= maxIterations`
first fires on the 60th fetch, so 59 fetches are status-processed. -/
def pollRun (runAt : Nat → RunStatus) : Except String RunStatus × Nat :=
  pollFrom runAt (maxIterations - 1) 0

/-- A citationless chat response body. -/
inductive ChatResp where
| ok (message : String) (citations : List Citation)
| serverError (error : String) (details : String)
deriving DecidableEq

/-- The citations the caller receives from a chat response (a 500 error body
carries none). -/
def respCitations : ChatResp → List Citation
| ChatResp.ok _ cs => cs
| ChatResp.serverError _ _ => []

/-- `/api/chat` (lines 921-944): a throw from the run loop is caught and
answered as 500 `Error processing query` with the thrown message as details
and no citations. -/
def chatRespond (runAt : Nat → RunStatus) (okMessage : String)
    (okCitations : List Citation) : ChatResp :=
  match (pollRun runAt).1 with
  | Except.error e => ChatResp.serverError "Error processing query" e
  | Except.ok _ => ChatResp.ok okMessage okCitations

theorem pollFrom_count_le (runAt : Nat → RunStatus) :
    ∀ (fuel k : Nat), (pollFrom runAt fuel k).2 ≤ fuel + 1 := by
  intro fuel
  induction fuel with
  | zero => intro k; simp [pollFrom]
  | succ f ih =>
      intro k
      cases hst : runAt k with
      | queued => simp only [pollFrom, hst]; have := ih (k + 1); omega
      | inProgress => simp only [pollFrom, hst]; have := ih (k + 1); omega
      | requiresAction b =>
          cases b with
          | true => simp only [pollFrom, hst]; have := ih (k + 1); omega
          | false => simp only [pollFrom, hst]; omega
      | completed => simp only [pollFrom, hst]; omega
      | failed m => simp only [pollFrom, hst]; omega
      | cancelled m => simp only [pollFrom, hst]; omega
      | expired => simp only [pollFrom, hst]; have := ih (k + 1); omega

theorem pollFrom_timeout (runAt : Nat → RunStatus) :
    ∀ (fuel k : Nat),
      (∀ i, k ≤ i → i < k + fuel → continuesPolling (runAt i) = true) →
      pollFrom runAt fuel k = (Except.error "Agent run timeout", fuel + 1) := by
  intro fuel
  induction fuel with
  | zero => intro k h; rfl
  | succ f ih =>
      intro k h
      have hk : continuesPolling (runAt k) = true := h k (Nat.le_refl k) (by omega)
      have hrest : ∀ i, k + 1 ≤ i → i < (k + 1) + f → continuesPolling (runAt i) = true :=
        fun i h1 h2 => h i (by omega) (by omega)
      cases hst : runAt k with
      | queued => simp only [pollFrom, hst]; rw [ih (k + 1) hrest]
      | inProgress => simp only [pollFrom, hst]; rw [ih (k + 1) hrest]
      | requiresAction b =>
          cases b with
          | true => simp only [pollFrom, hst]; rw [ih (k + 1) hrest]
          | false => rw [hst] at hk; simp [continuesPolling] at hk
      | completed => rw [hst] at hk; simp [continuesPolling] at hk
      | failed m => rw [hst] at hk; simp [continuesPolling] at hk
      | cancelled m => rw [hst] at hk; simp [continuesPolling] at hk
      | expired => simp only [pollFrom, hst]; rw [ih (k + 1) hrest]

/-- C10 Bounded generation polling: the run-polling loop performs at most 60
fetches; when every fetch up to the ceiling reports a still-active status it
terminates exactly at the ceiling by throwing the timeout error rather than
polling forever; a terminal `failed` status throws the engine failure; and
any thrown engine error is surfaced by `/api/chat` as a 500 response that
carries no citations. -/
theorem boundedGenerationPolling (runAt : Nat → RunStatus) :
    (pollRun runAt).2 ≤ maxIterations
    ∧ ((∀ i, i < maxIterations - 1 → continuesPolling (runAt i) = true) →
        pollRun runAt = (Except.error "Agent run timeout", maxIterations))
    ∧ (∀ m, runAt 0 = RunStatus.failed m →
        (pollRun runAt).1 = Except.error ("Run failed: " ++ m.getD "failed"))
    ∧ (∀ okMessage okCitations e, (pollRun runAt).1 = Except.error e →
        chatRespond runAt okMessage okCitations
          = ChatResp.serverError "Error processing query" e
        ∧ respCitations (chatRespond runAt okMessage okCitations) = []) := by
  refine ⟨?_, ?_, ?_, ?_⟩
  · exact pollFrom_count_le runAt (maxIterations - 1) 0
  · intro h
    have := pollFrom_timeout runAt (maxIterations - 1) 0
      (fun i h1 h2 => h i (by omega))
    exact this
  · intro m hst
    have h590 : pollFrom runAt (58 + 1) 0
        = (Except.error ("Run failed: " ++ m.getD "failed"), 1) := by
      simp only [pollFrom, hst]
    exact congrArg Prod.fst h590
  · intro okMessage okCitations e he
    unfold chatRespond
    rw [he]
    exact ⟨rfl, rfl⟩

/-- C10 witness: a run that stays `in_progress` forever is cut off with the
timeout error after exactly 60 fetches, and `/api/chat` surfaces it as a 500
with no citations. -/
theorem boundedGenerationPolling_witness :
    pollRun (fun _ => RunStatus.inProgress)
      = (Except.error "Agent run timeout", 60)
    ∧ respCitations (chatRespond (fun _ => RunStatus.inProgress) "m" []) = [] :=
  have h := boundedGenerationPolling (fun _ => RunStatus.inProgress)
  ⟨h.2.1 (fun i _ => rfl),
    (h.2.2.2 "m" [] "Agent run timeout"
      (congrArg Prod.fst (h.2.1 (fun i _ => rfl)))).2⟩

end LegalRag
